import Mathlib

/-!
Shallow embedding of the realtyvest-avm scraper core: the retry decorator and
rate limiter from `src/data/scrapers/utils.py`, the caching / validation
workflow of `src/data/scrapers/base_scraper.py`, the cache-key helper of
`src/utils/helpers.py`, and the logger factory of `src/utils/logger.py`,
together with theorems settling the specification's claims about them.
-/

namespace Avm

/-! ## Exceptions and the retry decorator (`src/data/scrapers/utils.py`) -/

/-- A Python exception as seen by `retry_on_failure`: either a
`requests.exceptions.RequestException` (a transient network error) or any
other exception.  The `tag` distinguishes individual exception objects, so
"re-raises the last observed error unchanged" is expressible. -/
inductive PyExc where
  | requestException (tag : Nat)
  | otherError (tag : Nat)
deriving DecidableEq, Repr

/-- Whether an exception is caught by the decorator's
`except requests.exceptions.RequestException` clause. -/
def PyExc.isRequestException : PyExc → Bool
  | .requestException _ => true
  | .otherError _ => false

/-- The `for attempt in range(max_retries + 1)` loop body of the wrapper built
by `retry_on_failure`.  `f n` is the outcome of the `n`-th invocation of the
wrapped function (0-based), `attempt` the current loop index and `remaining`
how many loop iterations are left.  Returns the wrapper's outcome, the number
of invocations of `f` performed, and the list of backoff sleeps
(`backoff_factor ** attempt`, modelled over `ℚ`) executed, in order.  The
`remaining = 0` base case is dead code: `retry_on_failure` always starts the
loop with `max_retries + 1 ≥ 1` iterations. -/
def retryRun (backoff : ℚ) (f : Nat → Except PyExc α) (attempt : Nat) :
    Nat → Except PyExc α × Nat × List ℚ
  | 0 => (Except.error (PyExc.otherError 0), 0, [])
  | remaining + 1 =>
    match f attempt with
    | Except.ok v => (Except.ok v, 1, [])
    | Except.error e =>
      if e.isRequestException then
        match remaining with
        | 0 => (Except.error e, 1, [])
        | r + 1 =>
          let rest := retryRun backoff f (attempt + 1) (r + 1)
          (rest.1, rest.2.1 + 1, backoff ^ attempt :: rest.2.2)
      else (Except.error e, 1, [])

/-- The wrapper `retry_on_failure(max_retries, backoff_factor)` applied to a function whose
`n`-th invocation has outcome `f n`: runs the attempt loop from attempt 0 with
`max_retries + 1` iterations.  A `RequestException` is recorded and retried
after sleeping `backoff ^ attempt` (unless the loop is on its final
iteration, in which case the loop ends and the last recorded exception is
re-raised); any other exception propagates immediately. -/
def retry_on_failure (backoff : ℚ) (maxRetries : Nat) (f : Nat → Except PyExc α) :
    Except PyExc α × Nat × List ℚ :=
  retryRun backoff f 0 (maxRetries + 1)

/-! ## Rate limiter (`src/data/scrapers/utils.py`) -/

/-- State of `RateLimiter`: configured minimum and maximum delay (seconds, modelled
over `ℚ`) and the mutable `last_request_time` timestamp. -/
structure RateLimiter where
  min_delay : ℚ
  max_delay : ℚ
  last_request_time : ℚ
deriving DecidableEq, Repr

/-- One call of `RateLimiter.wait`, over an abstract monotone clock.
`tEntry` is the value of `time.time()` read at entry, `delay` the value drawn
by `random.uniform(min_delay, max_delay)`, and `slack ≥ 0` the extra time
consumed beyond the requested sleep (`time.sleep(d)` blocks for at least `d`;
the second `time.time()` read happens after it).  Returns the updated limiter
and the completion time recorded into `last_request_time`. -/
def RateLimiter.wait (rl : RateLimiter) (tEntry delay slack : ℚ) : RateLimiter × ℚ :=
  let timeSinceLast := tEntry - rl.last_request_time
  let tDone :=
    if timeSinceLast < delay then tEntry + (delay - timeSinceLast) + slack
    else tEntry + slack
  ({ rl with last_request_time := tDone }, tDone)

/-- A sequence of `wait()` calls on one limiter.  Each call is described by the
environment triple `(tEntry, delay, slack)` of `RateLimiter.wait`.  Returns
the final limiter state and the list of completion times, in order. -/
def runWaits (rl : RateLimiter) : List (ℚ × ℚ × ℚ) → RateLimiter × List ℚ
  | [] => (rl, [])
  | c :: cs =>
    let step := rl.wait c.1 c.2.1 c.2.2
    let rest := runWaits step.1 cs
    (rest.1, step.2 :: rest.2)

/-- Well-formed environment for a sequence of `wait()` calls: the clock is
monotone (each entry time is at or after the previously recorded
`last_request_time`), each sampled delay lies in `[min_delay, max_delay]` as
`random.uniform` guarantees, and sleep slack is nonnegative. -/
def validRun (rl : RateLimiter) : List (ℚ × ℚ × ℚ) → Bool
  | [] => true
  | c :: cs =>
    decide (rl.last_request_time ≤ c.1) && decide (rl.min_delay ≤ c.2.1) &&
    decide (c.2.1 ≤ rl.max_delay) && decide (0 ≤ c.2.2) &&
    validRun (rl.wait c.1 c.2.1 c.2.2).1 cs

/-! ## Cache keys (`src/utils/helpers.py` and `BaseScraper.generate_cache_key`) -/

/-- Ordering used by Python's `sorted(kwargs.items())`: tuples compare by
first component first.  Keyword-argument keys of a single call are pairwise
distinct, so the key alone decides the order. -/
def kwLe (a b : String × String) : Prop := a.1 ≤ b.1

instance : DecidableRel kwLe := fun a b => inferInstanceAs (Decidable (a.1 ≤ b.1))

instance : IsTotal (String × String) kwLe := ⟨fun a b => le_total a.1 b.1⟩

instance : IsTrans (String × String) kwLe := ⟨fun _ _ _ h1 h2 => le_trans h1 h2⟩

/-- Strict version of `kwLe`, used to show the sorted item list of a
keyword-argument set (whose keys are pairwise distinct) is canonical. -/
def kwLt (a b : String × String) : Prop := a.1 < b.1

instance : IsAntisymm (String × String) kwLt :=
  ⟨fun _ _ h1 h2 => absurd h2 (lt_asymm h1)⟩

/-- Python's `sorted(kwargs.items())`.  Keyword arguments are modelled as an
association list in call order; values are modelled by their string
rendering. -/
def sortedKwargs (kw : List (String × String)) : List (String × String) :=
  List.insertionSort kwLe kw

/-- Rendering of the positional-argument tuple inside
`f"{args}_{sorted(kwargs.items())}"`. -/
def reprArgs (args : List String) : String :=
  "(" ++ String.intercalate ", " args ++ ")"

/-- Rendering of one `(key, value)` item. -/
def reprPair (p : String × String) : String :=
  "(" ++ p.1 ++ ", " ++ p.2 ++ ")"

/-- Rendering of the sorted item list inside
`f"{args}_{sorted(kwargs.items())}"`. -/
def reprPairList (l : List (String × String)) : String :=
  "[" ++ String.intercalate ", " (l.map reprPair) ++ "]"

namespace Helpers

/-- The helper `src/utils/helpers.py::generate_cache_key`: the MD5 hex digest of
`f"{args}_{sorted(kwargs.items())}"`.  The MD5 digest is modelled by an
arbitrary deterministic `digest : String → String` parameter: every claim
about this function concerns only which canonical string is hashed. -/
def generate_cache_key (digest : String → String) (args : List String)
    (kwargs : List (String × String)) : String :=
  digest (reprArgs args ++ "_" ++ reprPairList (sortedKwargs kwargs))

end Helpers

/-! ## Tables (pandas DataFrames, as the scraper uses them) -/

/-- One cell of a DataFrame: a null (`NaN`) or a value, modelled by its
string rendering. -/
inductive Cell where
  | null
  | val (s : String)
deriving DecidableEq, Repr

/-- A DataFrame: a column list and rows of cells aligned with it. -/
structure Table where
  columns : List String
  rows : List (List Cell)
deriving DecidableEq, Repr

/-- The cell of `row` in column `c`, given the column list.  A column not in
the list, or a position past the row's end (neither occurs for a rectangular
frame whose columns contain `c`), reads as null. -/
def cellAt (columns : List String) (row : List Cell) (c : String) : Cell :=
  match columns.findIdx? (fun name => decide (name = c)) with
  | some i => row.getD i Cell.null
  | none => Cell.null

/-! ## Base scraper (`src/data/scrapers/base_scraper.py`) -/

/-- Failure modes of `BaseScraper.validate_data`: the explicit
`ValueError(f"Missing required columns: {missing}")`, carrying the set of
missing columns (modelled as the sublist of `required_columns` absent from
the frame), and the pandas `KeyError` that
`df.drop_duplicates(subset=['address'])` raises when the frame has no
`address` column. -/
inductive VError where
  | missingColumns (missing : List String)
  | keyError (column : String)
deriving DecidableEq, Repr

/-- Pandas `df.drop_duplicates(subset=['address'], keep='first')`: keep each row
whose key value has not been seen before it.  `seen` accumulates the key
values of rows already kept. -/
def dedupRows (key : List Cell → Cell) (seen : List Cell) :
    List (List Cell) → List (List Cell)
  | [] => []
  | r :: rs =>
    if key r ∈ seen then dedupRows key seen rs
    else r :: dedupRows key (key r :: seen) rs

/-- Whether `df.dropna(subset=required_columns)` drops `row`: some required
column holds a null. -/
def hasNullIn (columns : List String) (required : List String) (row : List Cell) : Bool :=
  required.any (fun c => decide (cellAt columns row c = Cell.null))

/-- The `address` value of a row — the deduplication key of
`validate_data`. -/
def addrKey (df : Table) (row : List Cell) : Cell :=
  cellAt df.columns row "address"

/-- The first row of `rows` whose key value is `k` — the row that
`keep='first'` deduplication retains for `k`. -/
def firstWithKey (key : List Cell → Cell) (rows : List (List Cell)) (k : Cell) :
    Option (List Cell) :=
  rows.find? (fun r => decide (key r = k))

/-- The rows surviving the success path of `validate_data`: duplicate
`address` rows dropped (keep first), then rows with a null in any required
column dropped. -/
def cleanedRows (df : Table) (required : List String) : List (List Cell) :=
  (dedupRows (addrKey df) [] df.rows).filter
    (fun row => !(hasNullIn df.columns required row))

/-- The cleaned frame produced by the success path of `validate_data`. -/
def cleanedTable (df : Table) (required : List String) : Table :=
  { df with rows := cleanedRows df required }

/-- The method `BaseScraper.validate_data(df, required_columns)`: raise `ValueError` if
any required column is missing; otherwise drop duplicate `address` rows
(keep first) — pandas raises `KeyError` here when the frame has no `address`
column — then drop rows with a null in any required column. -/
def validate_data (df : Table) (required : List String) : Except VError Table :=
  let missing := required.filter (fun c => !(decide (c ∈ df.columns)))
  if missing ≠ [] then Except.error (VError.missingColumns missing)
  else if "address" ∈ df.columns then Except.ok (cleanedTable df required)
  else Except.error (VError.keyError "address")

/-- One cached file: the table written and the day-number of its modification
time. -/
structure CacheEntry where
  table : Table
  mtimeDay : Int
deriving DecidableEq, Repr

/-- The cache directory: file name (cache key) to entry, `none` when no such
file exists. -/
def Cache : Type := String → Option CacheEntry

/-- A wall-clock instant as the scraper observes it: the absolute day number
(differences of day numbers model `(datetime.now() - mtime).days`, the age in
whole days) and the `%Y%m` stamp used in cache keys. -/
structure Instant where
  day : Int
  yearMonth : String
deriving DecidableEq, Repr

/-- Per-instance scraper configuration from `BaseScraper.__init__`.  The
class name feeds the cache key; `cache_ttl_days` is a Python `int`. -/
structure ScraperConfig where
  className : String
  cache_enabled : Bool
  cache_ttl_days : Int
deriving DecidableEq, Repr

/-- The method `BaseScraper.get_cached_data(cache_key)`: `None` when caching is
disabled, the file is absent, or the file's age in whole days exceeds the
TTL; the cached table otherwise. -/
def get_cached_data (cfg : ScraperConfig) (cache : Cache) (now : Instant)
    (cacheKey : String) : Option Table :=
  if !cfg.cache_enabled then none
  else
    match cache cacheKey with
    | none => none
    | some entry =>
      if now.day - entry.mtimeDay > cfg.cache_ttl_days then none
      else some entry.table

/-- The method `BaseScraper.save_to_cache(data, cache_key)`: a no-op when caching is
disabled; otherwise overwrite the file named by the key, stamping the current
modification time. -/
def save_to_cache (cfg : ScraperConfig) (cache : Cache) (now : Instant)
    (data : Table) (cacheKey : String) : Cache :=
  if !cfg.cache_enabled then cache
  else fun k => if k = cacheKey then some { table := data, mtimeDay := now.day } else cache k

/-- The method `BaseScraper.generate_cache_key(**kwargs)`:
`"_".join(f"{k}={v}" for k, v in sorted(kwargs.items()))`, hashed (digest
truncated to 12 characters) and prefixed with the lower-cased class name and
the current `%Y%m` stamp. -/
def BaseScraper.generate_cache_key (digest : String → String) (cfg : ScraperConfig)
    (now : Instant) (kwargs : List (String × String)) : String :=
  let keyString := String.intercalate "_" ((sortedKwargs kwargs).map (fun p => p.1 ++ "=" ++ p.2))
  cfg.className.toLower ++ "_" ++ now.yearMonth ++ "_" ++ (digest keyString).take 12

/-- Outcome of one `scrape()` call: the returned table, the cache directory
afterwards, and how many times `fetch_data` was invoked during the call. -/
structure ScrapeResult (Raw : Type) where
  table : Table
  cache : Cache
  fetchCalls : Nat

/-- The method `BaseScraper.scrape(use_cache, **kwargs)`: generate the cache key; when
`use_cache`, return a fresh cached table if there is one; otherwise
`fetch_data`, `parse_response`, save to cache, and return the parsed table.
`fetch_data` and `parse_response` are the abstract subclass methods. -/
def scrape {Raw : Type} (cfg : ScraperConfig) (digest : String → String)
    (fetch_data : List (String × String) → Raw) (parse_response : Raw → Table)
    (cache : Cache) (now : Instant) (use_cache : Bool)
    (kwargs : List (String × String)) : ScrapeResult Raw :=
  let cacheKey := BaseScraper.generate_cache_key digest cfg now kwargs
  match (if use_cache then get_cached_data cfg cache now cacheKey else none) with
  | some cached => { table := cached, cache := cache, fetchCalls := 0 }
  | none =>
    let df := parse_response (fetch_data kwargs)
    { table := df, cache := save_to_cache cfg cache now df cacheKey, fetchCalls := 1 }

/-! ## Logger factory (`src/utils/logger.py`) -/

/-- A logging handler attached to a logger: the console `StreamHandler` or a
`RotatingFileHandler` with its path, `maxBytes` and `backupCount`. -/
inductive Handler where
  | console
  | rotatingFile (path : String) (maxBytes backupCount : Nat)
deriving DecidableEq, Repr

/-- Observable state of one `logging.Logger`: its numeric level and attached
handlers. -/
structure Logger where
  level : Nat
  handlers : List Handler
deriving DecidableEq, Repr

/-- The process-wide logger registry behind `logging.getLogger`: every name is
mapped to a logger (a never-configured name maps to a fresh logger with no
handlers and level `NOTSET = 0`). -/
def LoggerRegistry : Type := String → Logger

/-- Python's `level.upper()`: upper-case every character (level names are ASCII). -/
def pyUpper (s : String) : String :=
  String.mk (s.data.map Char.toUpper)

/-- Python's `getattr(logging, level.upper())`: the numeric value of a level name, or
`none` (an `AttributeError`) for an unknown name. -/
def levelOf (level : String) : Option Nat :=
  match pyUpper level with
  | "DEBUG" => some 10
  | "INFO" => some 20
  | "WARNING" => some 30
  | "ERROR" => some 40
  | "CRITICAL" => some 50
  | _ => none

/-- The factory `setup_logger(name, log_file, level, max_bytes, backup_count)`: look the
logger up, set its level, and — only if it has no handlers yet — attach a
console handler and, when `log_file` is given, a rotating file handler.
Returns the updated registry and the returned logger (`none` models the
`AttributeError` on an unknown level name). -/
def setup_logger (reg : LoggerRegistry) (name : String) (logFile : Option String)
    (level : String) (maxBytes backupCount : Nat) :
    Option (LoggerRegistry × Logger) :=
  match levelOf level with
  | none => none
  | some lv =>
    let lg1 : Logger := { reg name with level := lv }
    if lg1.handlers ≠ [] then
      some (fun n => if n = name then lg1 else reg n, lg1)
    else
      let withConsole : Logger := { lg1 with handlers := lg1.handlers ++ [Handler.console] }
      let final : Logger :=
        match logFile with
        | none => withConsole
        | some p =>
          { withConsole with
            handlers := withConsole.handlers ++ [Handler.rotatingFile p maxBytes backupCount] }
      some (fun n => if n = name then final else reg n, final)

/-! ## Concrete fixtures used in witnesses -/

/-- A concrete listings table. -/
def tableW : Table :=
  { columns := ["address", "price"],
    rows := [[Cell.val "123 Main St", Cell.val "450000"],
             [Cell.val "9 Elm Ave", Cell.val "310000"]] }

/-- A concrete scraper configuration with caching enabled, TTL 7 days. -/
def cfgW : ScraperConfig :=
  { className := "ZillowScraper", cache_enabled := true, cache_ttl_days := 7 }

/-- The same configuration with caching disabled. -/
def cfgDisabledW : ScraperConfig :=
  { className := "ZillowScraper", cache_enabled := false, cache_ttl_days := 7 }

/-- A concrete cache holding one file, `k`, written on day 100. -/
def cacheW : Cache := fun k =>
  if k = "k" then some { table := tableW, mtimeDay := 100 } else none

/-- A concrete logger registry in which every logger already has a console
handler attached and level `INFO = 20`. -/
def regW : LoggerRegistry := fun _ => { level := 20, handlers := [Handler.console] }

/-- A table with two rows sharing one address, where the first occurrence has
a null in the required `price` column. -/
def dupNullTable : Table :=
  { columns := ["address", "price"],
    rows := [[Cell.val "123 Main St", Cell.null],
             [Cell.val "123 Main St", Cell.val "500000"]] }

/-- A table with two rows sharing one address, both rows complete. -/
def dupTable : Table :=
  { columns := ["address", "price"],
    rows := [[Cell.val "123 Main St", Cell.val "450000"],
             [Cell.val "123 Main St", Cell.val "500000"]] }

/-- The table `validate_data` returns for `dupNullTable`: no rows at all. -/
def outEmptyW : Table :=
  { columns := ["address", "price"], rows := [] }

/-- The table `validate_data` returns for `dupTable`: exactly the first of
the two duplicate rows. -/
def outW : Table :=
  { columns := ["address", "price"],
    rows := [[Cell.val "123 Main St", Cell.val "450000"]] }

/-! ## Helper lemmas -/

/-- One step of the retry loop when the current attempt raises a
`RequestException` and at least one more iteration remains: sleep and
recurse. -/
theorem retryRun_step_reqExc (backoff : ℚ) (f : Nat → Except PyExc α)
    (attempt r t : Nat) (h : f attempt = Except.error (PyExc.requestException t)) :
    retryRun backoff f attempt (r + 1 + 1) =
      ((retryRun backoff f (attempt + 1) (r + 1)).1,
       (retryRun backoff f (attempt + 1) (r + 1)).2.1 + 1,
       backoff ^ attempt :: (retryRun backoff f (attempt + 1) (r + 1)).2.2) := by
  rw [retryRun.eq_def, h]
  rfl

/-- If the wrapped function succeeds on attempt `attempt + k` within the
remaining budget, after request-exception failures on all earlier attempts,
the retry loop returns that success. -/
theorem retryRun_ok_of_earlier_reqExc (backoff : ℚ) (f : Nat → Except PyExc α) :
    ∀ (k attempt remaining : Nat) (v : α), k < remaining →
      f (attempt + k) = Except.ok v →
      (∀ j, j < k → ∃ t, f (attempt + j) = Except.error (PyExc.requestException t)) →
      (retryRun backoff f attempt remaining).1 = Except.ok v := by
  intro k
  induction k with
  | zero =>
    intro attempt remaining v hk hok _hprev
    match remaining, hk with
    | r + 1, _ =>
      rw [Nat.add_zero] at hok
      simp [retryRun, hok]
  | succ k ih =>
    intro attempt remaining v hk hok hprev
    match remaining, hk with
    | r + 1, hk =>
      obtain ⟨t, ht⟩ := hprev 0 (Nat.succ_pos k)
      rw [Nat.add_zero] at ht
      have hr : ∃ r2, r = r2 + 1 := by
        cases r with
        | zero => omega
        | succ r2 => exact ⟨r2, rfl⟩
      obtain ⟨r2, rfl⟩ := hr
      rw [retryRun_step_reqExc backoff f attempt r2 t ht]
      exact ih (attempt + 1) (r2 + 1) v (by omega)
        (by
          have he : attempt + 1 + k = attempt + (k + 1) := by omega
          rw [he]; exact hok)
        (by
          intro j hj
          obtain ⟨t2, ht2⟩ := hprev (j + 1) (by omega)
          have he : attempt + 1 + j = attempt + (j + 1) := by omega
          exact ⟨t2, by rw [he]; exact ht2⟩)

/-- A list sorted under `kwLe` whose keys are pairwise distinct is sorted
under the strict order `kwLt`. -/
theorem sorted_kwLt_of_sorted_kwLe (l : List (String × String))
    (hs : List.Sorted kwLe l) (hn : (l.map Prod.fst).Nodup) :
    List.Sorted kwLt l := by
  have hne : l.Pairwise (fun a b : String × String => a.1 ≠ b.1) := by
    rw [List.Nodup, List.pairwise_map] at hn
    exact hn
  exact (hs.and hne).imp (fun h => lt_of_le_of_ne h.1 h.2)

/-- Two keyword-argument sets with the same (key, value) pairs — in any call
order — have the same sorted item list, provided the keys are distinct (as
Python keyword arguments always are). -/
theorem sortedKwargs_eq_of_perm (kw1 kw2 : List (String × String))
    (hperm : kw1.Perm kw2) (hkeys : (kw1.map Prod.fst).Nodup) :
    sortedKwargs kw1 = sortedKwargs kw2 := by
  have hp : (sortedKwargs kw1).Perm (sortedKwargs kw2) :=
    (List.perm_insertionSort kwLe kw1).trans
      (hperm.trans (List.perm_insertionSort kwLe kw2).symm)
  have hn1 : ((sortedKwargs kw1).map Prod.fst).Nodup :=
    (((List.perm_insertionSort kwLe kw1).map Prod.fst).nodup_iff).2 hkeys
  have hn2 : ((sortedKwargs kw2).map Prod.fst).Nodup :=
    ((hp.map Prod.fst).nodup_iff).1 hn1
  exact List.eq_of_perm_of_sorted hp
    (sorted_kwLt_of_sorted_kwLe _ (List.sorted_insertionSort kwLe kw1) hn1)
    (sorted_kwLt_of_sorted_kwLe _ (List.sorted_insertionSort kwLe kw2) hn2)

/-- The key values of the rows kept by `dedupRows` are pairwise distinct and
avoid every key already seen. -/
theorem dedupRows_nodup (key : List Cell → Cell) :
    ∀ (rows : List (List Cell)) (seen : List Cell),
      ((dedupRows key seen rows).map key).Nodup ∧
      ∀ k ∈ seen, k ∉ (dedupRows key seen rows).map key := by
  intro rows
  induction rows with
  | nil => intro seen; simp [dedupRows]
  | cons r rs ih =>
    intro seen
    by_cases hmem : key r ∈ seen
    · simpa [dedupRows, hmem] using ih seen
    · obtain ⟨ihnd, ihdisj⟩ := ih (key r :: seen)
      simp only [dedupRows, if_neg hmem, List.map_cons, List.nodup_cons]
      refine ⟨⟨ihdisj (key r) (List.mem_cons_self _ _), ihnd⟩, ?_⟩
      intro k hk
      simp only [List.mem_cons, not_or]
      exact ⟨fun he => hmem (he ▸ hk), ihdisj k (List.mem_cons_of_mem _ hk)⟩

/-- Every row kept by `dedupRows` is the first input row with its key
value. -/
theorem dedupRows_mem_first (key : List Cell → Cell) :
    ∀ (rows : List (List Cell)) (seen : List Cell) (r : List Cell),
      r ∈ dedupRows key seen rows →
      key r ∉ seen ∧ rows.find? (fun x => decide (key x = key r)) = some r := by
  intro rows
  induction rows with
  | nil => intro seen r h; simp [dedupRows] at h
  | cons r2 rs ih =>
    intro seen r h
    by_cases hmem : key r2 ∈ seen
    · rw [dedupRows, if_pos hmem] at h
      obtain ⟨hns, hfind⟩ := ih seen r h
      have hne : ¬(decide (key r2 = key r) = true) := by
        simp only [decide_eq_true_eq]
        intro he
        exact hns (he ▸ hmem)
      exact ⟨hns, by rw [List.find?_cons_of_neg rs hne, hfind]⟩
    · rw [dedupRows, if_neg hmem] at h
      rcases List.mem_cons.mp h with rfl | h2
      · exact ⟨hmem, List.find?_cons_of_pos rs (by simp)⟩
      · obtain ⟨hns, hfind⟩ := ih (key r2 :: seen) r h2
        have hne : key r2 ≠ key r := by
          intro he
          exact hns (by rw [← he]; exact List.mem_cons_self _ _)
        refine ⟨fun hk => hns (List.mem_cons_of_mem _ hk), ?_⟩
        rw [List.find?_cons_of_neg rs (by simpa using hne), hfind]

/-- The first input row with key `k` is kept by `dedupRows` whenever `k` has
not already been seen. -/
theorem find?_mem_dedupRows (key : List Cell → Cell) :
    ∀ (rows : List (List Cell)) (seen : List Cell) (k : Cell) (r0 : List Cell),
      rows.find? (fun x => decide (key x = k)) = some r0 → k ∉ seen →
      r0 ∈ dedupRows key seen rows := by
  intro rows
  induction rows with
  | nil => intro seen k r0 h _; simp at h
  | cons r2 rs ih =>
    intro seen k r0 h hk
    by_cases he : key r2 = k
    · rw [List.find?_cons_of_pos rs (by simp [he])] at h
      injection h with h
      subst h
      rw [dedupRows, if_neg (fun hc => hk (he ▸ hc))]
      exact List.mem_cons_self _ _
    · rw [List.find?_cons_of_neg rs (by simpa using he)] at h
      by_cases hmem : key r2 ∈ seen
      · rw [dedupRows, if_pos hmem]
        exact ih seen k r0 h hk
      · rw [dedupRows, if_neg hmem]
        refine List.mem_cons_of_mem _ (ih (key r2 :: seen) k r0 h ?_)
        simp only [List.mem_cons, not_or]
        exact ⟨fun hkk => he hkk.symm, hk⟩

/-- In a list of rows with pairwise-distinct key values, filtering by the key
of a member returns exactly that member. -/
theorem filter_key_singleton (key : List Cell → Cell) :
    ∀ (l : List (List Cell)) (r0 : List Cell),
      (l.map key).Nodup → r0 ∈ l →
      l.filter (fun r => decide (key r = key r0)) = [r0] := by
  intro l
  induction l with
  | nil => intro r0 _ h; simp at h
  | cons x xs ih =>
    intro r0 hnd hmem
    simp only [List.map_cons, List.nodup_cons] at hnd
    obtain ⟨hx, hnd⟩ := hnd
    rcases List.mem_cons.mp hmem with rfl | h2
    · rw [List.filter_cons_of_pos (by simp)]
      have hrest : xs.filter (fun r => decide (key r = key r0)) = [] := by
        rw [List.filter_eq_nil_iff]
        intro a ha
        simp only [decide_eq_true_eq]
        intro he
        exact hx (he ▸ List.mem_map_of_mem key ha)
      rw [hrest]
    · have hne : key x ≠ key r0 := by
        intro he
        exact hx (he ▸ List.mem_map_of_mem key h2)
      rw [List.filter_cons_of_neg (by simpa using hne)]
      exact ih r0 hnd h2

/-- Two successive filters commute. -/
theorem filter_comm_rows (p q : List Cell → Bool) (l : List (List Cell)) :
    (l.filter q).filter p = (l.filter p).filter q := by
  rw [List.filter_filter, List.filter_filter]
  exact List.filter_congr (fun a _ => Bool.and_comm (p a) (q a))

/-- Success branch of `validate_data`: no required column missing and an
`address` column present. -/
theorem validate_data_ok_eq (df : Table) (required : List String)
    (hm : required.filter (fun c => !(decide (c ∈ df.columns))) = [])
    (haddr : "address" ∈ df.columns) :
    validate_data df required = Except.ok (cleanedTable df required) := by
  unfold validate_data
  rw [if_neg (by simpa using hm), if_pos haddr]

/-- Failure branch of `validate_data`: some required column missing. -/
theorem validate_data_missing_eq (df : Table) (required : List String)
    (hm : required.filter (fun c => !(decide (c ∈ df.columns))) ≠ []) :
    validate_data df required =
      Except.error (VError.missingColumns
        (required.filter (fun c => !(decide (c ∈ df.columns))))) := by
  unfold validate_data
  rw [if_pos (by simpa using hm)]

/-- Failure branch of `validate_data`: nothing missing but no `address`
column, so `drop_duplicates` raises `KeyError`. -/
theorem validate_data_keyError_eq (df : Table) (required : List String)
    (hm : required.filter (fun c => !(decide (c ∈ df.columns))) = [])
    (haddr : "address" ∉ df.columns) :
    validate_data df required = Except.error (VError.keyError "address") := by
  unfold validate_data
  rw [if_neg (by simpa using hm), if_neg haddr]

/-- The rows of the cleaned frame, unfolded. -/
theorem cleanedTable_rows (df : Table) (required : List String) :
    (cleanedTable df required).rows =
      (dedupRows (addrKey df) [] df.rows).filter
        (fun row => !(hasNullIn df.columns required row)) := rfl

/-! ## Claims -/

/-- Claim C2: a function that raises a transient network error
(`RequestException`) on every invocation, wrapped with
`retry_on_failure(max_retries=3)`, is invoked exactly 4 times, and the
wrapper re-raises the last observed network error unchanged (the exact
exception object of the fourth call); backoff sleeps of
`backoff ^ 0, backoff ^ 1, backoff ^ 2` happen in between. -/
theorem retry_exhaustion (backoff : ℚ) (tags : Nat → Nat) :
    retry_on_failure backoff 3
        (fun n => (Except.error (PyExc.requestException (tags n)) : Except PyExc Nat)) =
      (Except.error (PyExc.requestException (tags 3)), 4,
        [backoff ^ 0, backoff ^ 1, backoff ^ 2]) := rfl

/-- Claim C3: a non-network exception raised on the first call propagates
immediately — one invocation, no backoff sleep; and if the wrapped function
returns a value on some attempt within the retry budget (all earlier attempts
having raised network errors), the wrapper returns that value unchanged. -/
theorem retry_non_network_and_success (backoff : ℚ) (maxRetries : Nat)
    (f : Nat → Except PyExc α) :
    (∀ t, f 0 = Except.error (PyExc.otherError t) →
      retry_on_failure backoff maxRetries f = (Except.error (PyExc.otherError t), 1, [])) ∧
    (∀ (k : Nat) (v : α), k ≤ maxRetries → f k = Except.ok v →
      (∀ j, j < k → ∃ t, f j = Except.error (PyExc.requestException t)) →
      (retry_on_failure backoff maxRetries f).1 = Except.ok v) := by
  constructor
  · intro t h
    simp [retry_on_failure, retryRun, h, PyExc.isRequestException]
  · intro k v hk hok hprev
    exact retryRun_ok_of_earlier_reqExc backoff f k 0 (maxRetries + 1) v (by omega)
      (by rw [Nat.zero_add]; exact hok)
      (by intro j hj; rw [Nat.zero_add]; exact hprev j hj)

/-- Witness for C3 at concrete inputs: an `otherError` on the first call
propagates after one invocation, and an immediate success is returned. -/
theorem retry_non_network_and_success_witness :
    retry_on_failure (2 : ℚ) 3
        (fun _ => (Except.error (PyExc.otherError 7) : Except PyExc Nat)) =
      (Except.error (PyExc.otherError 7), 1, []) ∧
    (retry_on_failure (2 : ℚ) 3 (fun _ => (Except.ok 5 : Except PyExc Nat))).1 =
      Except.ok 5 :=
  ⟨(retry_non_network_and_success 2 3 _).1 7 rfl,
   (retry_non_network_and_success 2 3 _).2 0 5 (Nat.zero_le 3) rfl
     (fun j hj => absurd hj (Nat.not_lt_zero j))⟩

/-- Claim C4: with caching enabled, `get_cached_data` returns the cached
table exactly when the cache file exists and its age in whole days is at most
the TTL; an age of exactly the TTL is fresh, and one day more is stale. -/
theorem get_cached_data_ttl_boundary (cfg : ScraperConfig) (cache : Cache)
    (now : Instant) (key : String) (hEnabled : cfg.cache_enabled = true) :
    (∀ t : Table, get_cached_data cfg cache now key = some t ↔
      ∃ e, cache key = some e ∧ e.table = t ∧
        now.day - e.mtimeDay ≤ cfg.cache_ttl_days) ∧
    (∀ e, cache key = some e → now.day - e.mtimeDay = cfg.cache_ttl_days →
      get_cached_data cfg cache now key = some e.table) ∧
    (∀ e, cache key = some e → now.day - e.mtimeDay = cfg.cache_ttl_days + 1 →
      get_cached_data cfg cache now key = none) := by
  refine ⟨?_, ?_, ?_⟩
  · intro t
    cases hc : cache key with
    | none => simp [get_cached_data, hEnabled, hc]
    | some e =>
      simp only [get_cached_data, hEnabled, Bool.not_true, Bool.false_eq_true,
        if_false, hc]
      constructor
      · intro h
        split at h
        · exact absurd h (by simp)
        · rename_i hcond
          injection h with h2
          exact ⟨e, rfl, h2, by omega⟩
      · rintro ⟨e2, he2, ht, hle⟩
        injection he2 with he2
        subst he2
        rw [if_neg (by omega), ht]
  · intro e hc hage
    simp only [get_cached_data, hEnabled, Bool.not_true, Bool.false_eq_true,
      if_false, hc]
    rw [if_neg (by omega)]
  · intro e hc hage
    simp only [get_cached_data, hEnabled, Bool.not_true, Bool.false_eq_true,
      if_false, hc]
    rw [if_pos (by omega)]

/-- Witness for C4 at a concrete scraper, cache and clock. -/
theorem get_cached_data_ttl_boundary_witness :
    cfgW.cache_enabled = true ∧
    (get_cached_data cfgW cacheW ⟨107, "202510"⟩ "k" = some tableW ↔
      ∃ e, cacheW "k" = some e ∧ e.table = tableW ∧
        (107 : Int) - e.mtimeDay ≤ cfgW.cache_ttl_days) :=
  ⟨rfl, ((get_cached_data_ttl_boundary cfgW cacheW ⟨107, "202510"⟩ "k" rfl).1 tableW)⟩

/-- Claim C1: with caching enabled and no cache file yet for these
parameters, calling `scrape()` twice with identical keyword parameters and
`use_cache=True` performs exactly one invocation of `fetch_data` across the
two calls, and the second call returns a table equal to the first — provided
the second call happens no later than the TTL after the first and within the
same `%Y%m` month, so that its key matches and the file is still fresh. -/
theorem scrape_cache_idempotent {Raw : Type} (cfg : ScraperConfig)
    (digest : String → String) (fetch_data : List (String × String) → Raw)
    (parse_response : Raw → Table) (cache : Cache) (now later : Instant)
    (kwargs : List (String × String))
    (hEnabled : cfg.cache_enabled = true)
    (hCold : cache (BaseScraper.generate_cache_key digest cfg now kwargs) = none)
    (hMono : now.day ≤ later.day)
    (hFresh : later.day - now.day ≤ cfg.cache_ttl_days)
    (hMonth : later.yearMonth = now.yearMonth) :
    (scrape cfg digest fetch_data parse_response cache now true kwargs).fetchCalls +
      (scrape cfg digest fetch_data parse_response
        (scrape cfg digest fetch_data parse_response cache now true kwargs).cache
        later true kwargs).fetchCalls = 1 ∧
    (scrape cfg digest fetch_data parse_response
        (scrape cfg digest fetch_data parse_response cache now true kwargs).cache
        later true kwargs).table =
      (scrape cfg digest fetch_data parse_response cache now true kwargs).table := by
  have hkey : BaseScraper.generate_cache_key digest cfg later kwargs =
      BaseScraper.generate_cache_key digest cfg now kwargs := by
    simp [BaseScraper.generate_cache_key, hMonth]
  set key := BaseScraper.generate_cache_key digest cfg now kwargs with hkeydef
  have hget1 : get_cached_data cfg cache now key = none := by
    simp [get_cached_data, hEnabled, hCold]
  have hscrape1 : scrape cfg digest fetch_data parse_response cache now true kwargs =
      { table := parse_response (fetch_data kwargs),
        cache := save_to_cache cfg cache now (parse_response (fetch_data kwargs)) key,
        fetchCalls := 1 } := by
    simp [scrape, hget1]
  have hsaved : save_to_cache cfg cache now (parse_response (fetch_data kwargs)) key key =
      some { table := parse_response (fetch_data kwargs), mtimeDay := now.day } := by
    simp [save_to_cache, hEnabled]
  have hget2 : get_cached_data cfg
      (save_to_cache cfg cache now (parse_response (fetch_data kwargs)) key) later key =
      some (parse_response (fetch_data kwargs)) := by
    simp only [get_cached_data, hEnabled, Bool.not_true, Bool.false_eq_true, if_false,
      hsaved]
    rw [if_neg (by omega)]
  have hscrape2 : scrape cfg digest fetch_data parse_response
      (save_to_cache cfg cache now (parse_response (fetch_data kwargs)) key)
      later true kwargs =
      { table := parse_response (fetch_data kwargs),
        cache := save_to_cache cfg cache now (parse_response (fetch_data kwargs)) key,
        fetchCalls := 0 } := by
    simp [scrape, hkey, hget2]
  rw [hscrape1, hscrape2]
  exact ⟨rfl, rfl⟩

/-- Witness for C1 at a concrete scraper, an initially empty cache, and a
second call three days after the first. -/
theorem scrape_cache_idempotent_witness :
    (scrape cfgW (fun s => s) (fun _ => 0) (fun _ => tableW)
        (fun _ => none) ⟨100, "202510"⟩ true []).fetchCalls +
      (scrape cfgW (fun s => s) (fun _ => (0 : Nat)) (fun _ => tableW)
        (scrape cfgW (fun s => s) (fun _ => 0) (fun _ => tableW)
          (fun _ => none) ⟨100, "202510"⟩ true []).cache
        ⟨103, "202510"⟩ true []).fetchCalls = 1 ∧
    (scrape cfgW (fun s => s) (fun _ => (0 : Nat)) (fun _ => tableW)
        (scrape cfgW (fun s => s) (fun _ => 0) (fun _ => tableW)
          (fun _ => none) ⟨100, "202510"⟩ true []).cache
        ⟨103, "202510"⟩ true []).table =
      (scrape cfgW (fun s => s) (fun _ => 0) (fun _ => tableW)
        (fun _ => none) ⟨100, "202510"⟩ true []).table :=
  scrape_cache_idempotent cfgW (fun s => s) (fun _ => (0 : Nat)) (fun _ => tableW)
    (fun _ => none) ⟨100, "202510"⟩ ⟨103, "202510"⟩ [] rfl rfl
    (by decide) (by decide) rfl

/-- Claim C10: with `cache_enabled=False`, `get_cached_data` always returns
`None`, `save_to_cache` writes nothing, and every `scrape()` call — for any
`use_cache` — invokes `fetch_data` exactly once, leaves the cache untouched,
and returns the freshly parsed table. -/
theorem cache_disabled_always_fetches {Raw : Type} (cfg : ScraperConfig)
    (digest : String → String) (fetch_data : List (String × String) → Raw)
    (parse_response : Raw → Table) (cache : Cache) (now : Instant)
    (use_cache : Bool) (kwargs : List (String × String))
    (key : String) (data : Table)
    (hDisabled : cfg.cache_enabled = false) :
    get_cached_data cfg cache now key = none ∧
    save_to_cache cfg cache now data key = cache ∧
    (scrape cfg digest fetch_data parse_response cache now use_cache kwargs).fetchCalls = 1 ∧
    (scrape cfg digest fetch_data parse_response cache now use_cache kwargs).cache = cache ∧
    (scrape cfg digest fetch_data parse_response cache now use_cache kwargs).table =
      parse_response (fetch_data kwargs) := by
  have h1 : ∀ c k, get_cached_data cfg c now k = none := by
    intro c k
    simp [get_cached_data, hDisabled]
  have h2 : ∀ c d k, save_to_cache cfg c now d k = c := by
    intro c d k
    simp [save_to_cache, hDisabled]
  refine ⟨h1 cache key, h2 cache data key, ?_, ?_, ?_⟩ <;>
    cases use_cache <;> simp [scrape, h1, h2]

/-- Witness for C10 at a concrete disabled scraper. -/
theorem cache_disabled_always_fetches_witness :
    cfgDisabledW.cache_enabled = false ∧
    (scrape cfgDisabledW (fun s => s) (fun _ => 0) (fun _ => tableW)
      cacheW ⟨107, "202510"⟩ true []).fetchCalls = 1 :=
  ⟨rfl, (cache_disabled_always_fetches cfgDisabledW (fun s => s) (fun _ => (0 : Nat))
    (fun _ => tableW) cacheW ⟨107, "202510"⟩ true [] "k" tableW rfl).2.2.1⟩

/-- Claim C7: both `generate_cache_key` functions (the standalone helper and
the `BaseScraper` method) produce the same key regardless of the order in
which the keyword arguments are supplied: any permutation of the
(key, value) pairs — with the pairwise-distinct keys Python keyword
arguments always have — yields the same key. -/
theorem generate_cache_key_order_independent (digest : String → String)
    (args : List String) (cfg : ScraperConfig) (now : Instant)
    (kw1 kw2 : List (String × String))
    (hperm : kw1.Perm kw2) (hkeys : (kw1.map Prod.fst).Nodup) :
    Helpers.generate_cache_key digest args kw1 =
      Helpers.generate_cache_key digest args kw2 ∧
    BaseScraper.generate_cache_key digest cfg now kw1 =
      BaseScraper.generate_cache_key digest cfg now kw2 := by
  have h := sortedKwargs_eq_of_perm kw1 kw2 hperm hkeys
  exact ⟨by simp [Helpers.generate_cache_key, h],
    by simp [BaseScraper.generate_cache_key, h]⟩

/-- Witness for C7: `generate_cache_key(a=1, b=2)` equals
`generate_cache_key(b=2, a=1)` for both functions. -/
theorem generate_cache_key_order_independent_witness :
    Helpers.generate_cache_key (fun s => s) [] [("a", "1"), ("b", "2")] =
      Helpers.generate_cache_key (fun s => s) [] [("b", "2"), ("a", "1")] ∧
    BaseScraper.generate_cache_key (fun s => s) cfgW ⟨100, "202510"⟩
        [("a", "1"), ("b", "2")] =
      BaseScraper.generate_cache_key (fun s => s) cfgW ⟨100, "202510"⟩
        [("b", "2"), ("a", "1")] :=
  generate_cache_key_order_independent (fun s => s) [] cfgW ⟨100, "202510"⟩
    [("a", "1"), ("b", "2")] [("b", "2"), ("a", "1")]
    (List.Perm.swap ("b", "2") ("a", "1") []) (by decide)

/-- Claim C8 (counterexample): `setup_logger` on a name whose logger already
has handlers does return it without adding handlers, but it is not returned
"unchanged": the level is set before the handler check, so a registry whose
`"scraper"` logger has level `INFO = 20` and one console handler comes back
with level `DEBUG = 10` — a different logger state. -/
theorem setup_logger_modifies_level :
    (regW "scraper").handlers ≠ [] ∧
    setup_logger regW "scraper" none "DEBUG" 10485760 5 =
      some (fun n => if n = "scraper"
          then { level := 10, handlers := [Handler.console] }
          else regW n,
        { level := 10, handlers := [Handler.console] }) ∧
    ({ level := 10, handlers := [Handler.console] } : Logger) ≠ regW "scraper" :=
  ⟨by decide, rfl, by decide⟩

/-- Claim C8 (amended): if the logger registered under `name` already has
handlers, `setup_logger` adds no handlers and returns that logger — but with
its level set to the requested level (the only modification), for any
arguments passed. -/
theorem setup_logger_existing_handlers (reg : LoggerRegistry) (name : String)
    (logFile : Option String) (level : String) (maxBytes backupCount : Nat)
    (lv : Nat) (hlv : levelOf level = some lv)
    (hh : (reg name).handlers ≠ []) :
    setup_logger reg name logFile level maxBytes backupCount =
      some (fun n => if n = name then { reg name with level := lv } else reg n,
        { reg name with level := lv }) := by
  simp [setup_logger, hlv, hh]

/-- Witness for C8 (amended) at a concrete registry. -/
theorem setup_logger_existing_handlers_witness :
    levelOf "info" = some 20 ∧ (regW "scraper").handlers ≠ [] ∧
    setup_logger regW "scraper" none "info" 10485760 5 =
      some (fun n => if n = "scraper"
          then { level := 20, handlers := [Handler.console] }
          else regW n,
        { level := 20, handlers := [Handler.console] }) :=
  ⟨by decide, by decide,
    setup_logger_existing_handlers regW "scraper" none "info" 10485760 5 20
      (by decide) (by decide)⟩

/-- The completion time of one `wait()` call is at least `min_delay` after
the previously recorded `last_request_time`, given a monotone clock, a delay
of at least `min_delay`, and nonnegative sleep slack. -/
theorem wait_completion_lower_bound (rl : RateLimiter) (t d s : ℚ)
    (ht : rl.last_request_time ≤ t) (hd : rl.min_delay ≤ d) (hs : 0 ≤ s) :
    rl.last_request_time + rl.min_delay ≤ (rl.wait t d s).2 := by
  unfold RateLimiter.wait
  dsimp only
  split
  · linarith
  · rename_i h
    have h2 : d ≤ t - rl.last_request_time := not_lt.mp h
    linarith

/-- Across a well-formed sequence of `wait()` calls, consecutive completion
times are at least `min_delay` apart, and the first completion is at least
`min_delay` after the initially recorded `last_request_time`. -/
theorem runWaits_chain (calls : List (ℚ × ℚ × ℚ)) : ∀ rl : RateLimiter,
    validRun rl calls = true →
    List.Chain' (fun a b => rl.min_delay ≤ b - a) (runWaits rl calls).2 ∧
    ∀ c ∈ (runWaits rl calls).2.head?, rl.last_request_time + rl.min_delay ≤ c := by
  induction calls with
  | nil =>
    intro rl _
    exact ⟨List.chain'_nil, by simp [runWaits]⟩
  | cons c cs ih =>
    intro rl h
    simp only [validRun, Bool.and_eq_true, decide_eq_true_eq] at h
    obtain ⟨⟨⟨⟨ht, hd⟩, _hdmax⟩, hs⟩, hrest⟩ := h
    have hstep := wait_completion_lower_bound rl c.1 c.2.1 c.2.2 ht hd hs
    have ihres := ih (rl.wait c.1 c.2.1 c.2.2).1 hrest
    have hmin : (rl.wait c.1 c.2.1 c.2.2).1.min_delay = rl.min_delay := rfl
    have hlast : (rl.wait c.1 c.2.1 c.2.2).1.last_request_time =
      (rl.wait c.1 c.2.1 c.2.2).2 := rfl
    constructor
    · show List.Chain' (fun a b => rl.min_delay ≤ b - a)
        ((rl.wait c.1 c.2.1 c.2.2).2 :: (runWaits (rl.wait c.1 c.2.1 c.2.2).1 cs).2)
      rw [List.chain'_cons']
      refine ⟨?_, ihres.1⟩
      intro y hy
      have := ihres.2 y hy
      rw [hlast, hmin] at this
      linarith
    · intro x hx
      simp only [runWaits, Option.mem_def, List.head?_cons, Option.some_inj] at hx
      subst hx
      exact hstep

/-- Claim C9: for a rate limiter with minimum delay `m` and a run of
consecutive `wait()` calls over an abstract monotone clock — each sampled
delay in `[min_delay, max_delay]`, each sleep advancing the clock by at least
the requested amount — consecutive completion times are at least `m`
apart. -/
theorem rate_limiter_min_gap (rl : RateLimiter) (calls : List (ℚ × ℚ × ℚ))
    (h : validRun rl calls = true) :
    List.Chain' (fun a b => rl.min_delay ≤ b - a) (runWaits rl calls).2 :=
  (runWaits_chain calls rl h).1

/-- Witness for C9: two concrete `wait()` calls on a limiter configured with
delays in `[2, 4]`. -/
theorem rate_limiter_min_gap_witness :
    validRun { min_delay := 2, max_delay := 4, last_request_time := 0 }
      [(0, 2, 0), (2, 3, 0)] = true ∧
    List.Chain' (fun a b => (2 : ℚ) ≤ b - a)
      (runWaits { min_delay := 2, max_delay := 4, last_request_time := 0 }
        [(0, 2, 0), (2, 3, 0)]).2 :=
  ⟨by norm_num [validRun, RateLimiter.wait],
    rate_limiter_min_gap { min_delay := 2, max_delay := 4, last_request_time := 0 }
      [(0, 2, 0), (2, 3, 0)] (by norm_num [validRun, RateLimiter.wait])⟩

/-- Claim C5 (counterexample): a table whose columns are exactly the required
columns — nothing missing — on which `validate_data` nevertheless raises: the
frame has no `address` column, so the deduplication step raises a `KeyError`
rather than returning the cleaned table. -/
theorem validate_data_missing_address_raises :
    (∀ c ∈ ["price"], c ∈ ({ columns := ["price"], rows := [] } : Table).columns) ∧
    validate_data { columns := ["price"], rows := [] } ["price"] =
      Except.error (VError.keyError "address") :=
  ⟨by decide, rfl⟩

/-- Claim C5 (amended): `validate_data` fails with the schema `ValueError` —
naming exactly the absent required columns — if and only if some required
column is absent; otherwise, provided the table has an `address` column, it
returns the cleaned table without raising (when `address` is absent, the
deduplication step raises a `KeyError` instead). -/
theorem validate_data_schema_errors (df : Table) (required : List String) :
    ((∃ m, validate_data df required = Except.error (VError.missingColumns m)) ↔
      ∃ c ∈ required, c ∉ df.columns) ∧
    (∀ m, validate_data df required = Except.error (VError.missingColumns m) →
      ∀ c, c ∈ m ↔ c ∈ required ∧ c ∉ df.columns) ∧
    ((∀ c ∈ required, c ∈ df.columns) → "address" ∈ df.columns →
      ∃ outT, validate_data df required = Except.ok outT) := by
  by_cases hm : required.filter (fun c => !(decide (c ∈ df.columns))) = []
  · have hnomiss : ∀ m, validate_data df required ≠
        Except.error (VError.missingColumns m) := by
      intro m hbad
      by_cases haddr : "address" ∈ df.columns
      · rw [validate_data_ok_eq df required hm haddr] at hbad
        exact absurd hbad (by simp)
      · rw [validate_data_keyError_eq df required hm haddr] at hbad
        simp at hbad
    refine ⟨?_, ?_, ?_⟩
    · constructor
      · rintro ⟨m, hmm⟩
        exact absurd hmm (hnomiss m)
      · rintro ⟨c, hc, habs⟩
        exfalso
        have hcf : c ∈ required.filter (fun c => !(decide (c ∈ df.columns))) := by
          simp [List.mem_filter, hc, habs]
        rw [hm] at hcf
        exact absurd hcf (List.not_mem_nil c)
    · intro m hmm
      exact absurd hmm (hnomiss m)
    · intro _ haddr
      exact ⟨_, validate_data_ok_eq df required hm haddr⟩
  · have hv := validate_data_missing_eq df required hm
    refine ⟨?_, ?_, ?_⟩
    · constructor
      · intro _
        obtain ⟨c, hc⟩ := List.exists_mem_of_ne_nil _ hm
        rw [List.mem_filter] at hc
        exact ⟨c, hc.1, by simpa using hc.2⟩
      · intro _
        exact ⟨_, hv⟩
    · intro m hmm
      rw [hv] at hmm
      injection hmm with hmm
      injection hmm with hmm
      subst hmm
      intro c
      simp [List.mem_filter]
    · intro hall _
      exfalso
      apply hm
      rw [List.filter_eq_nil_iff]
      intro c hc
      simp [hall c hc]

/-- Witness for C5 (amended) at a concrete table missing a required
column. -/
theorem validate_data_schema_errors_witness :
    (∃ m, validate_data { columns := ["address"], rows := [] } ["address", "price"] =
        Except.error (VError.missingColumns m)) ↔
      ∃ c ∈ (["address", "price"] : List String),
        c ∉ ({ columns := ["address"], rows := [] } : Table).columns :=
  (validate_data_schema_errors { columns := ["address"], rows := [] }
    ["address", "price"]).1

/-- Claim C6 (counterexample): a table with two rows sharing the address
`123 Main St` for which `validate_data` retains zero rows, not "exactly one,
the first": deduplication keeps the first occurrence, whose null `price` the
subsequent `dropna` then removes. -/
theorem validate_data_null_first_occurrence :
    addrKey dupNullTable (dupNullTable.rows.getD 0 []) =
      addrKey dupNullTable (dupNullTable.rows.getD 1 []) ∧
    dupNullTable.rows.length = 2 ∧ outEmptyW.rows = [] ∧
    validate_data dupNullTable ["price"] = Except.ok outEmptyW := by
  refine ⟨by decide, by decide, by decide, ?_⟩
  rw [validate_data_ok_eq dupNullTable ["price"] (by decide) (by decide)]
  rfl

/-- Claim C6 (amended): when `validate_data` returns a table, no two retained
rows share an address, no retained row has a null in a required column, and
every retained row is the *first* input row with its address; moreover, for
an address whose first occurrence has no nulls in the required columns,
exactly one row with that address is retained, namely that first
occurrence.  (When the first occurrence has such a null, no row with that
address survives, as the counterexample shows.) -/
theorem validate_data_invariants (df out : Table) (required : List String)
    (h : validate_data df required = Except.ok out) :
    out.columns = df.columns ∧
    ((out.rows.map (addrKey df)).Nodup) ∧
    (∀ row ∈ out.rows, hasNullIn df.columns required row = false) ∧
    (∀ row ∈ out.rows, firstWithKey (addrKey df) df.rows (addrKey df row) = some row) ∧
    (∀ (k : Cell) (r0 : List Cell),
      firstWithKey (addrKey df) df.rows k = some r0 →
      hasNullIn df.columns required r0 = false →
      out.rows.filter (fun r => decide (addrKey df r = k)) = [r0]) := by
  have hm : required.filter (fun c => !(decide (c ∈ df.columns))) = [] := by
    by_contra hm
    rw [validate_data_missing_eq df required hm] at h
    exact absurd h (by simp)
  have haddr : "address" ∈ df.columns := by
    by_contra haddr
    rw [validate_data_keyError_eq df required hm haddr] at h
    exact absurd h (by simp)
  rw [validate_data_ok_eq df required hm haddr] at h
  injection h with h
  subst h
  have hdd := dedupRows_nodup (addrKey df) df.rows []
  refine ⟨rfl, ?_, ?_, ?_, ?_⟩
  · rw [cleanedTable_rows]
    exact ((List.filter_sublist _).map (addrKey df)).nodup hdd.1
  · intro row hrow
    rw [cleanedTable_rows, List.mem_filter] at hrow
    simpa using hrow.2
  · intro row hrow
    rw [cleanedTable_rows, List.mem_filter] at hrow
    exact (dedupRows_mem_first (addrKey df) df.rows [] row hrow.1).2
  · intro k r0 hfirst hnull
    have hk : addrKey df r0 = k := by
      have hp := List.find?_some hfirst
      simpa using hp
    have hr0 : r0 ∈ dedupRows (addrKey df) [] df.rows :=
      find?_mem_dedupRows (addrKey df) df.rows [] k r0 hfirst (List.not_mem_nil k)
    have hsingle : (dedupRows (addrKey df) [] df.rows).filter
        (fun r => decide (addrKey df r = k)) = [r0] := by
      rw [← hk]
      exact filter_key_singleton (addrKey df) _ r0 hdd.1 hr0
    rw [cleanedTable_rows, filter_comm_rows, hsingle,
      List.filter_cons_of_pos (by simp [hnull])]
    rfl

/-- Witness for C6 (amended): two complete rows sharing an address; exactly
the first is retained. -/
theorem validate_data_invariants_witness :
    validate_data dupTable ["price"] = Except.ok outW ∧
    ((outW.rows.map (addrKey dupTable)).Nodup) := by
  have hv : validate_data dupTable ["price"] = Except.ok outW := by
    rw [validate_data_ok_eq dupTable ["price"] (by decide) (by decide)]
    rfl
  exact ⟨hv, (validate_data_invariants dupTable outW ["price"] hv).2.1⟩

end Avm
